import Mathlib

set_option maxRecDepth 100000

/-!
Verification of the proto_ros translation engine.

This file shallowly embeds the two core modules of the repository:

* `Msg2Proto` models `src/proto_ros/msg2proto.py`: the PEG grammar for the
  line-oriented message format (lines 39-69), the tree visitor that turns a
  parse into a flat document (lines 83-196), the forward type table
  (lines 298-329) and the renderer `generate_proto` (lines 199-281).
* `ProtocGenMsg` models `src/proto_ros/protoc_gen_msg.py`: the descriptor
  data model used by the plugin, the reverse type tables (lines 127-175)
  and the per-message renderer with enum inlining (lines 36-124).

Strings are modelled by `String` (a wrapped `List Char`), Python lists by
`List`, Python sets by duplicate-free `List`s built with `List.insert`
(the sources only test membership and remove elements; they never iterate
a set except the import set, whose iteration order is unspecified in
Python as well). Python string helpers (`split`, `replace`, `join`,
`startswith`, slicing) are given explicit executable models below.
-/

namespace Msg2Proto

/-- Remaining input of the parser, in source order. -/
abbrev Chars := List Char

-- Character classes of the regular expressions in the grammar
-- (msg2proto.py lines 39-69).  `Char.isLower`/`isUpper`/`isDigit` are the
-- ASCII classes `[a-z]`, `[A-Z]`, `\d` used by the Python regexes.

def isSpaceTab (c : Char) : Bool := c == ' ' || c == '\t'

def isEolChar (c : Char) : Bool := c == '\n' || c == '\r'

def isWordCh (c : Char) : Bool := c.isLower || c.isUpper || c.isDigit || c == '_'

/-- `SP = ~r"[ \t]*"`: always succeeds, consuming horizontal whitespace.
The visitor never uses the matched text, only the rest is returned. -/
def pSP (s : Chars) : Chars := s.dropWhile isSpaceTab

/-- `EOL = ~r"[\n\r]"`. -/
def pEOL : Chars → Option Chars
  | c :: rest => if isEolChar c then some rest else none
  | [] => none

/-- One-or-more characters of a class (regex `[...]+`), returning the
matched text; fails on zero matches. -/
def pTakeWhile1 (p : Char → Bool) (s : Chars) : Option (String × Chars) :=
  match s.takeWhile p with
  | [] => none
  | t => some (String.mk t, s.dropWhile p)

/-- Regex of shape `[first][rest]*`: one mandatory first character
followed by greedily matched rest characters. -/
def pClassStar (first rest : Char → Bool) : Chars → Option (String × Chars)
  | c :: s => if first c then some (String.mk (c :: s.takeWhile rest), s.dropWhile rest) else none
  | [] => none

/-- `primitivetype = ~r"[a-z0-9]+"`. -/
def pPrimitivetype (s : Chars) : Option (String × Chars) :=
  pTakeWhile1 (fun c => c.isLower || c.isDigit) s

/-- `msgname = ~r"[A-Z]\w*"`. -/
def pMsgname (s : Chars) : Option (String × Chars) :=
  pClassStar (fun c => c.isUpper) isWordCh s

/-- `packagename = ~r"[a-z][a-z_]*"`. -/
def pPackagename (s : Chars) : Option (String × Chars) :=
  pClassStar (fun c => c.isLower) (fun c => c.isLower || c == '_') s

/-- `fieldname = ~r"[a-z][a-z\d_]*"`. -/
def pFieldname (s : Chars) : Option (String × Chars) :=
  pClassStar (fun c => c.isLower) (fun c => c.isLower || c.isDigit || c == '_') s

/-- `constname = ~r"[A-Z][A-Z\d_]*"`. -/
def pConstname (s : Chars) : Option (String × Chars) :=
  pClassStar (fun c => c.isUpper) (fun c => c.isUpper || c.isDigit || c == '_') s

/-- A literal token of the grammar. -/
def pLit (w : String) (s : Chars) : Option Chars :=
  if w.data.isPrefixOf s then some (s.drop w.data.length) else none

/-- `arraybound = ~r"(<=)?\d+"`. -/
def pArraybound (s : Chars) : Option (String × Chars) :=
  match s with
  | '<' :: '=' :: rest =>
    match pTakeWhile1 Char.isDigit rest with
    | some (d, r) => some ("<=" ++ d, r)
    | none => none
  | _ => pTakeWhile1 Char.isDigit s

/-- `stringbound = ~r"<=\d+"`. -/
def pStringbound (s : Chars) : Option (String × Chars) :=
  match s with
  | '<' :: '=' :: rest =>
    match pTakeWhile1 Char.isDigit rest with
    | some (d, r) => some ("<=" ++ d, r)
    | none => none
  | _ => none

/-- The record the visitor builds for a `type` node (visit_type,
visit_basetype, visit_arrayspec; msg2proto.py lines 128-159).
`arraybound = none` models the key being absent from the Python dict
(no `arrayspec` matched); `some ""` models an `arrayspec` without a
bound. -/
structure TypeRec where
  package : String
  typename : String
  is_complextype : Bool
  is_array : Bool
  arraybound : Option String
deriving DecidableEq

/-- The record for a `field` or `constant` line (visit_field /
visit_constant; both build the same dict shape). The optional
value/comment default to `""` exactly as in the visitor. -/
structure FieldRec where
  type : TypeRec
  name : String
  value : String
  comment : String
deriving DecidableEq

/-- One document item, as produced by `MsgVisitor.visit_msg`: one item
per matched `emptyline`/`line` of the unit. -/
inductive Item where
  | emptyline : Item
  | comment : String → Item
  | field : FieldRec → Item
  | constant : FieldRec → Item
deriving DecidableEq

/-- `complextype = (packagename "/")? msgname`.  PEG semantics: if
`packagename` matches but `"/"` does not, the optional group matches
empty and `msgname` is tried from the original position; once the group
has matched it is committed. -/
def pComplextype (s : Chars) : Option (TypeRec × Chars) :=
  let opt : String × Chars :=
    match pPackagename s with
    | some (pkg, r1) =>
      match r1 with
      | '/' :: r2 => (pkg, r2)
      | _ => ("", s)
    | none => ("", s)
  match pMsgname opt.2 with
  | some (mn, r3) => some (⟨opt.1, mn, true, false, none⟩, r3)
  | none => none

/-- `stringtype = "string" stringbound?`; visit_stringtype discards the
bound and yields `{package: "", typename: "string"}`. -/
def pStringtype (s : Chars) : Option (TypeRec × Chars) :=
  match pLit "string" s with
  | some r1 =>
    match pStringbound r1 with
    | some (_, r2) => some (⟨"", "string", false, false, none⟩, r2)
    | none => some (⟨"", "string", false, false, none⟩, r1)
  | none => none

/-- `basetype = complextype / stringtype / primitivetype` (ordered
choice, committed on first success). -/
def pBasetype (s : Chars) : Option (TypeRec × Chars) :=
  match pComplextype s with
  | some res => some res
  | none =>
    match pStringtype s with
    | some res => some res
    | none =>
      match pPrimitivetype s with
      | some (t, r) => some (⟨"", t, false, false, none⟩, r)
      | none => none

/-- `arrayspec = "[" arraybound? "]"`; yields the bound text, `""` when
the optional bound matched empty (visit_arrayspec). -/
def pArrayspec (s : Chars) : Option (String × Chars) :=
  match s with
  | '[' :: r1 =>
    let br : String × Chars :=
      match pArraybound r1 with
      | some (b, r) => (b, r)
      | none => ("", r1)
    match br.2 with
    | ']' :: r3 => some (br.1, r3)
    | _ => none
  | _ => none

/-- `type = basetype arrayspec?` (visit_type merges the two dicts). -/
def pType (s : Chars) : Option (TypeRec × Chars) :=
  match pBasetype s with
  | some (bt, r1) =>
    match pArrayspec r1 with
    | some (ab, r2) => some ({ bt with is_array := true, arraybound := some ab }, r2)
    | none => some (bt, r1)
  | none => none

/-- The character class of `numericval = ~r"[-+\.bBoOxX\d]+"`. -/
def isNumericCh (c : Char) : Bool :=
  c == '-' || c == '+' || c == '.' || c == 'b' || c == 'B' || c == 'o' || c == 'O' ||
    c == 'x' || c == 'X' || c.isDigit

def pNumericval (s : Chars) : Option (String × Chars) := pTakeWhile1 isNumericCh s

/-- `boolval = ~r"[Tt]rue" / ~r"[Ff]alse"`, yielding the matched text. -/
def pBoolval (s : Chars) : Option (String × Chars) :=
  match s with
  | c :: rest =>
    if (c == 'T' || c == 't') && "rue".data.isPrefixOf rest then
      some (String.mk (c :: "rue".data), rest.drop 3)
    else if (c == 'F' || c == 'f') && "alse".data.isPrefixOf rest then
      some (String.mk (c :: "alse".data), rest.drop 4)
    else none
  | [] => none

/-- Greedy `[^q]*` followed by the mandatory closing character `q`;
returns the body (without delimiters) and the rest after `q`. -/
def pCloseAt (q : Char) (s : Chars) : Option (Chars × Chars) :=
  let body := s.takeWhile (fun d => d != q)
  match s.dropWhile (fun d => d != q) with
  | _ :: r => some (body, r)
  | [] => none

/-- One alternative of `stringval`: `[a-z]?` then a `q`-quoted body.  If
the optional lowercase letter is present the quote must follow it
directly, otherwise the quote must come first (regex backtracking on the
optional prefix collapses to this case split). -/
def pStringvalQuote (q : Char) (s : Chars) : Option (String × Chars) :=
  match s with
  | c :: rest =>
    if c == q then
      match pCloseAt q rest with
      | some (body, r) => some (String.mk (c :: body ++ [q]), r)
      | none => none
    else if c.isLower then
      match rest with
      | d :: rest2 =>
        if d == q then
          match pCloseAt q rest2 with
          | some (body, r) => some (String.mk (c :: d :: body ++ [q]), r)
          | none => none
        else none
      | [] => none
    else none
  | [] => none

/-- `stringval`: double-quoted alternative first, then single-quoted. -/
def pStringval (s : Chars) : Option (String × Chars) :=
  match pStringvalQuote '"' s with
  | some res => some res
  | none => pStringvalQuote '\'' s

/-- `arrayval = ~r"\[[^\]]*\]"`. -/
def pArrayval (s : Chars) : Option (String × Chars) :=
  match s with
  | '[' :: rest =>
    match pCloseAt ']' rest with
    | some (body, r) => some (String.mk ('[' :: body ++ [']']), r)
    | none => none
  | _ => none

/-- `value = numericval / boolval / stringval / arrayval` (ordered,
committed choice; visit_value yields the matched text). -/
def pValue (s : Chars) : Option (String × Chars) :=
  match pNumericval s with
  | some res => some res
  | none =>
    match pBoolval s with
    | some res => some res
    | none =>
      match pStringval s with
      | some res => some res
      | none => pArrayval s

/-- `comment = "#"+ SP text` with `text = ~r".*"` (anything up to the
next `\n`); visit_comment keeps only the text. -/
def pComment (s : Chars) : Option (String × Chars) :=
  match pTakeWhile1 (fun c => c == '#') s with
  | some (_, r1) =>
    let r2 := pSP r1
    some (String.mk (r2.takeWhile (fun c => c != '\n')), r2.dropWhile (fun c => c != '\n'))
  | none => none

/-- `field = type SP fieldname SP !"=" value? SP comment?`
(visit_field merges type, name, value-or-`""`, comment-or-`""`). -/
def pField (s : Chars) : Option (FieldRec × Chars) :=
  match pType s with
  | none => none
  | some (ty, r1) =>
    match pFieldname (pSP r1) with
    | none => none
    | some (nm, r3) =>
      let r4 := pSP r3
      if r4.head? == some '=' then none
      else
        let vr : String × Chars :=
          match pValue r4 with
          | some (v, r) => (v, r)
          | none => ("", r4)
        let r6 := pSP vr.2
        let cr : String × Chars :=
          match pComment r6 with
          | some (c, r) => (c, r)
          | none => ("", r6)
        some (⟨ty, nm, vr.1, cr.1⟩, cr.2)

/-- `constant = type SP constname SP "=" SP value SP comment?`
(visit_constant). -/
def pConstant (s : Chars) : Option (FieldRec × Chars) :=
  match pType s with
  | none => none
  | some (ty, r1) =>
    match pConstname (pSP r1) with
    | none => none
    | some (nm, r3) =>
      match pLit "=" (pSP r3) with
      | none => none
      | some r4 =>
        match pValue (pSP r4) with
        | none => none
        | some (v, r5) =>
          let r6 := pSP r5
          let cr : String × Chars :=
            match pComment r6 with
            | some (c, r) => (c, r)
            | none => ("", r6)
          some (⟨ty, nm, v, cr.1⟩, cr.2)

/-- `emptyline = SP EOL` (visit_emptyline). -/
def pEmptyline (s : Chars) : Option (Item × Chars) :=
  match pEOL (pSP s) with
  | some r => some (Item.emptyline, r)
  | none => none

/-- `line = SP (comment / definition)? SP EOL` with
`definition = constant / field`.  When the optional payload matches
empty we return `Item.emptyline`; that case is unreachable from
`parse_msg` because the `emptyline` alternative is tried first and
matches every whitespace-only line. -/
def pLine (s : Chars) : Option (Item × Chars) :=
  let r1 := pSP s
  let ir : Item × Chars :=
    match pComment r1 with
    | some (c, r) => (Item.comment c, r)
    | none =>
      match pConstant r1 with
      | some (k, r) => (Item.constant k, r)
      | none =>
        match pField r1 with
        | some (f, r) => (Item.field f, r)
        | none => (Item.emptyline, r1)
  match pEOL (pSP ir.2) with
  | some r4 => some (ir.1, r4)
  | none => none

/-- `msg = (emptyline / line)*`: the greedy PEG star.  Every iteration
consumes at least the mandatory `EOL` character, so fuel
`input length + 1` can never be exhausted before the star stops by
itself; the star itself never fails. -/
def pMsgGo : Nat → Chars → List Item × Chars
  | 0, s => ([], s)
  | Nat.succ fuel, s =>
    match pEmptyline s with
    | some (it, r) =>
      let rec1 := pMsgGo fuel r
      (it :: rec1.1, rec1.2)
    | none =>
      match pLine s with
      | some (it, r) =>
        let rec1 := pMsgGo fuel r
        (it :: rec1.1, rec1.2)
      | none => ([], s)

/-- `parse_msg` (msg2proto.py lines 184-196): `grammar.parse` succeeds
only when the whole input is consumed (an incomplete match raises
`IncompleteParseError`, a `ParseError`, which the `except` swallows), and
on success the visitor produces one item per matched line. -/
def parse_msg (msg : String) : Option (List Item) :=
  match pMsgGo (msg.data.length + 1) msg.data with
  | (items, []) => some items
  | _ => none

/-! ### Python string helpers used by the generator -/

/-- Python `s.replace(a, b)` for one-character patterns. -/
def charReplace (s : String) (a b : Char) : String :=
  String.mk (s.data.map (fun c => if c == a then b else c))

/-- Worker of Python `s.split(c)`: `acc` is the reversed current piece. -/
def splitCharAux (c : Char) : Chars → Chars → List String
  | [], acc => [String.mk acc.reverse]
  | x :: xs, acc =>
    if x == c then String.mk acc.reverse :: splitCharAux c xs []
    else splitCharAux c xs (x :: acc)

/-- Python `s.split(c)` for a one-character separator. -/
def pySplit (s : String) (c : Char) : List String := splitCharAux c s.data []

/-- Concatenation of a list of strings (repeated `+=` in the source). -/
def strConcat : List String → String
  | [] => ""
  | s :: r => s ++ strConcat r

/-- Python `sep.join(parts)`. -/
def strJoinSep (sep : String) : List String → String
  | [] => ""
  | [x] => x
  | x :: y :: xs => x ++ sep ++ strJoinSep sep (y :: xs)

/-! ### to_snake_case (msg2proto.py lines 72-76)

Each `re.sub` scans left to right, replacing non-overlapping matches and
resuming after each match; the fuel (the input length) bounds the number
of scanning steps, each of which consumes at least one character. -/

/-- `re.sub('(.)([A-Z][a-z]+)', r'\1_\2', name)`: `.` is any character
except a newline, the `[a-z]+` part is greedy. -/
def snakeSub1Go : Nat → Chars → Chars
  | 0, s => s
  | Nat.succ fuel, s =>
    match s with
    | [] => []
    | c :: rest =>
      match rest with
      | u :: rest2 =>
        if c != '\n' && u.isUpper && (match rest2 with | l :: _ => l.isLower | [] => false) then
          let lows := rest2.takeWhile Char.isLower
          c :: '_' :: u :: (lows ++ snakeSub1Go fuel (rest2.drop lows.length))
        else
          c :: snakeSub1Go fuel rest
      | [] => [c]

/-- `re.sub('__([A-Z])', r'_\1', name)`. -/
def snakeSub2Go : Nat → Chars → Chars
  | 0, s => s
  | Nat.succ fuel, s =>
    match s with
    | '_' :: '_' :: u :: rest =>
      if u.isUpper then '_' :: u :: snakeSub2Go fuel rest
      else '_' :: snakeSub2Go fuel ('_' :: u :: rest)
    | c :: rest => c :: snakeSub2Go fuel rest
    | [] => []

/-- `re.sub('([a-z0-9])([A-Z])', r'\1_\2', name)`. -/
def snakeSub3Go : Nat → Chars → Chars
  | 0, s => s
  | Nat.succ fuel, s =>
    match s with
    | a :: u :: rest =>
      if (a.isLower || a.isDigit) && u.isUpper then a :: '_' :: u :: snakeSub3Go fuel rest
      else a :: snakeSub3Go fuel (u :: rest)
    | s1 => s1

/-- `to_snake_case` (msg2proto.py lines 72-76); the final `.lower()` is
ASCII lowering on the identifiers this tool handles. -/
def to_snake_case (name : String) : String :=
  let s1 := snakeSub1Go name.data.length name.data
  let s2 := snakeSub2Go s1.length s1
  let s3 := snakeSub3Go s2.length s2
  String.mk (s3.map Char.toLower)

/-! ### Forward type mapping and rendering (msg2proto.py lines 199-329) -/

/-- The `map` dict of `map_type` (lines 298-329).  The Python literal
lists the key `"std_msgs/String"` twice (`StringValue` then
`BytesValue`); in a Python dict literal the later entry overwrites the
earlier one, so only the `BytesValue` entry exists in the built dict and
only it is modelled here. -/
def msgTypeTable : List (String × String) := [
  ("float64", "double"), ("float32", "float"), ("int64", "int64"), ("uint64", "uint64"),
  ("int32", "int32"), ("uint32", "uint32"), ("int16", "int32"), ("uint16", "uint32"),
  ("int8", "int32"), ("uint8", "uint32"), ("byte", "uint32"), ("bool", "bool"),
  ("char", "string"), ("string", "string"), ("wstring", "string"),
  ("Header", "std_msgs.Header"),
  ("builtin_interfaces/Time", "google.protobuf.Timestamp"),
  ("builtin_interfaces/Duration", "google.protobuf.Duration"),
  ("std_msgs/Float64", "google.protobuf.DoubleValue"),
  ("std_msgs/Float32", "google.protobuf.FloatValue"),
  ("std_msgs/Int64", "google.protobuf.Int64Value"),
  ("std_msgs/UInt64", "google.protobuf.UInt64Value"),
  ("std_msgs/Int32", "google.protobuf.Int32Value"),
  ("std_msgs/UInt32", "google.protobuf.UInt32Value"),
  ("std_msgs/Bool", "google.protobuf.BoolValue"),
  ("std_msgs/String", "google.protobuf.BytesValue")]

/-- `map_type` (msg2proto.py lines 298-329):
`map.get(field_type, field_type.replace('/', '.'))`. -/
def map_type (field_type : String) : String :=
  match msgTypeTable.find? (fun p => p.1 == field_type) with
  | some p => p.2
  | none => charReplace field_type '/' '.'

def INDENT : String := "  "

/-- The type name a field renders with: qualify with the `/`-namespace
when present, then map (generate_proto lines 230-236). -/
def fieldMappedType (t : TypeRec) : String :=
  let typename := t.typename
  let typename := if t.package != "" then t.package ++ "/" ++ typename else typename
  map_type typename

/-- The import registered by one document item (generate_proto lines
238-247): only complex-typed fields register one; an unqualified mapped
name is prefixed with the current package; a type whose final segment is
the message being rendered registers nothing. -/
def itemImport (it : Item) (msg_name package : String) : Option String :=
  match it with
  | Item.field f =>
    if f.type.is_complextype then
      let typename := fieldMappedType f.type
      let parts := pySplit typename '.'
      let parts := if parts.length == 1 then package :: parts else parts
      if parts.getLastD "" != msg_name then
        some (strJoinSep "/" (parts.dropLast ++ [to_snake_case (parts.getLastD "")]))
      else none
    else none
  | _ => none

/-- The field line of `generate_proto` (lines 223-259): optional
`repeated` label, mapped type, name, the running field number, and the
comment with the array bound folded in. -/
def renderFieldLine (f : FieldRec) (fieldnumber : Nat) : String :=
  let field := INDENT
  let label := if f.type.is_array then "repeated" else ""
  let field := if label != "" then field ++ label ++ " " else field
  let field := field ++ fieldMappedType f.type ++ " "
  let field := field ++ f.name ++ " = " ++ toString fieldnumber ++ ";"
  let comment := f.comment
  let comment :=
    match f.type.arraybound with
    | some b => if b != "" then "[" ++ b ++ "] " ++ comment else comment
    | none => comment
  if comment != "" then field ++ " // " ++ comment else field

/-- The constant line of `generate_proto` (lines 260-269): an indent,
`"// "`, another indent, then `NAME = value;` and the optional
trailing comment. -/
def renderConstLine (k : FieldRec) : String :=
  let constant := INDENT ++ "// " ++ INDENT ++ k.name ++ " = " ++ k.value ++ ";"
  if k.comment != "" then constant ++ " // " ++ k.comment else constant

/-- The field-number update of the loop: only a field consumes a
number (line 252). -/
def nextNum (it : Item) (n : Nat) : Nat :=
  match it with
  | Item.field _ => n + 1
  | _ => n

/-- The text one loop iteration of `generate_proto` appends to
`message` (lines 215-269): exactly one chunk per document item. -/
def itemChunk (it : Item) (n : Nat) : String :=
  match it with
  | Item.emptyline => "\n"
  | Item.comment c => INDENT ++ "// " ++ c ++ "\n"
  | Item.field f => renderFieldLine f n ++ "\n"
  | Item.constant k => renderConstLine k ++ "\n"

/-- The body chunks of the message block, walked in document order with
the running field number. -/
def bodyChunks : List Item → Nat → List String
  | [], _ => []
  | it :: d, n => itemChunk it n :: bodyChunks d (nextNum it n)

/-- The import set collected by the loop, modelled as a duplicate-free
list (`set.add` = `List.insert`). -/
def collectImports (msg_name package : String) : List Item → List String → List String
  | [], acc => acc
  | it :: d, acc =>
    collectImports msg_name package d
      (match itemImport it msg_name package with
       | some i => acc.insert i
       | none => acc)

/-- `generate_proto` (msg2proto.py lines 199-281): header, optional
package clause, the import lines when the set is non-empty, then the
message block assembled from the body chunks. -/
def generate_proto (parsed_msg : List Item) (msg_name package : String) : String :=
  let proto := "// This file was generated. DO NOT EDIT!\n" ++ "\n" ++ "syntax = \"proto3\";\n"
  let proto := if package != "" then proto ++ "\n" ++ "package " ++ package ++ ";\n" else proto
  let message := "message " ++ msg_name ++ " \x7b\n" ++ strConcat (bodyChunks parsed_msg 1) ++ "\x7d"
  let imports := collectImports msg_name package parsed_msg []
  let proto :=
    if imports != [] then
      proto ++ "\n" ++ strConcat (imports.map (fun i => "import \"" ++ i ++ ".proto\";\n"))
    else proto
  proto ++ "\n" ++ message

/-! ### Derived views used by the theorems -/

/-- The field numbers emitted during the walk, in order. -/
def fieldNumbersFrom : List Item → Nat → List Nat
  | [], _ => []
  | Item.field _ :: d, n => n :: fieldNumbersFrom d (n + 1)
  | it :: d, n => fieldNumbersFrom d (nextNum it n)

/-- The number of field items of a document. -/
def countFields : List Item → Nat
  | [] => 0
  | Item.field _ :: d => countFields d + 1
  | _ :: d => countFields d

/-- Each item paired with the field number the walk holds when it is
rendered. -/
def annotateNums : List Item → Nat → List (Item × Nat)
  | [], _ => []
  | it :: d, n => (it, n) :: annotateNums d (nextNum it n)

/-- A field item whose complex type, after mapping and package
qualification, ends in the name of the message being rendered
(the `no recursion ?` test of line 244). -/
def isSelfRefItem (it : Item) (msg_name package : String) : Bool :=
  match it with
  | Item.field f =>
    f.type.is_complextype &&
      (let parts := pySplit (fieldMappedType f.type) '.'
       let parts := if parts.length == 1 then package :: parts else parts
       parts.getLastD "" == msg_name)
  | _ => false

end Msg2Proto

namespace ProtocGenMsg

/-! ### The descriptor data model

`protoc_gen_msg.py` receives already-parsed descriptors from the external
`google.protobuf.descriptor_pb2` module.  Field `type` and `label` are
the numeric codes of that model; the named constants below are the
standard `FieldDescriptorProto.TYPE_*` / `LABEL_*` values the source
refers to by name. -/

structure FieldDescP where
  name : String
  number : Nat
  label : Nat
  type : Nat
  type_name : String
deriving DecidableEq

structure EnumValueDesc where
  name : String
  number : Int
deriving DecidableEq

structure EnumDesc where
  name : String
  value : List EnumValueDesc
deriving DecidableEq

/-- A message descriptor: name, fields, nested messages, nested enums. -/
inductive MsgDesc where
  | mk (name : String) (field : List FieldDescP) (nested_type : List MsgDesc)
      (enum_type : List EnumDesc)

def MsgDesc.name : MsgDesc → String
  | MsgDesc.mk n _ _ _ => n

def MsgDesc.field : MsgDesc → List FieldDescP
  | MsgDesc.mk _ f _ _ => f

def MsgDesc.nested_type : MsgDesc → List MsgDesc
  | MsgDesc.mk _ _ nt _ => nt

def MsgDesc.enum_type : MsgDesc → List EnumDesc
  | MsgDesc.mk _ _ _ et => et

/-- One `FileDescriptorProto` of the request. -/
structure ProtoFile where
  name : String
  package : String
  message_type : List MsgDesc
  enum_type : List EnumDesc

/-- The `CodeGeneratorResponse` being filled: generated `(name, content)`
entries and the optional error string. -/
structure Resp where
  file : List (String × String)
  error : Option String
deriving DecidableEq

-- FieldDescriptorProto type codes (descriptor.proto numbering).

def TYPE_DOUBLE : Nat := 1
def TYPE_FLOAT : Nat := 2
def TYPE_INT64 : Nat := 3
def TYPE_UINT64 : Nat := 4
def TYPE_INT32 : Nat := 5
def TYPE_FIXED64 : Nat := 6
def TYPE_FIXED32 : Nat := 7
def TYPE_BOOL : Nat := 8
def TYPE_STRING : Nat := 9
def TYPE_GROUP : Nat := 10
def TYPE_MESSAGE : Nat := 11
def TYPE_BYTES : Nat := 12
def TYPE_UINT32 : Nat := 13
def TYPE_ENUM : Nat := 14
def TYPE_SFIXED32 : Nat := 15
def TYPE_SFIXED64 : Nat := 16
def TYPE_SINT32 : Nat := 17
def TYPE_SINT64 : Nat := 18

def LABEL_OPTIONAL : Nat := 1
def LABEL_REQUIRED : Nat := 2
def LABEL_REPEATED : Nat := 3

def CONSTANT_FIELD_TYPE : String := "uint8"

/-- The `map` dict of `map_type` (protoc_gen_msg.py lines 127-148), in
source order. -/
def typeTable : List (Nat × String) := [
  (TYPE_DOUBLE, "float64"), (TYPE_FLOAT, "float32"), (TYPE_INT64, "int64"),
  (TYPE_UINT64, "uint64"), (TYPE_INT32, "int32"), (TYPE_FIXED64, "uint64"),
  (TYPE_FIXED32, "uint32"), (TYPE_BOOL, "bool"), (TYPE_STRING, "string"),
  (TYPE_GROUP, "TYPE_GROUP"), (TYPE_MESSAGE, "TYPE_MESSAGE"), (TYPE_BYTES, "string"),
  (TYPE_UINT32, "uint32"), (TYPE_ENUM, "TYPE_ENUM"), (TYPE_SFIXED32, "int32"),
  (TYPE_SFIXED64, "int64"), (TYPE_SINT32, "int32"), (TYPE_SINT64, "int64")]

/-- `map_type` (reverse): `map.get(field_type, "string")`. -/
def map_type (field_type : Nat) : String :=
  match typeTable.find? (fun p => p.1 == field_type) with
  | some p => p.2
  | none => "string"

/-- The well-known-type dict of `map_type_name` (lines 151-166). -/
def typeNameTable : List (String × String) := [
  ("google.protobuf.Timestamp", "builtin_interfaces/Time"),
  ("google.protobuf.Duration", "builtin_interfaces/Duration"),
  ("google.protobuf.Empty", "std_msgs/Empty"),
  ("google.protobuf.DoubleValue", "std_msgs/Float64"),
  ("google.protobuf.FloatValue", "std_msgs/Float32"),
  ("google.protobuf.Int64Value", "std_msgs/Int64"),
  ("google.protobuf.UInt64Value", "std_msgs/UInt64"),
  ("google.protobuf.Int32Value", "std_msgs/Int32"),
  ("google.protobuf.UInt32Value", "std_msgs/UInt32"),
  ("google.protobuf.BoolValue", "std_msgs/Bool"),
  ("google.protobuf.StringValue", "std_msgs/String"),
  ("google.protobuf.BytesValue", "std_msgs/String")]

/-- `map_type_name`: `map.get(field_type_name, "std_msgs/String")`. -/
def map_type_name (field_type_name : String) : String :=
  match typeNameTable.find? (fun p => p.1 == field_type_name) with
  | some p => p.2
  | none => "std_msgs/String"

/-- The dict of `map_label` (lines 169-175); for an unknown code the
Python version returns the integer itself, which can never compare equal
to the string `"LABEL_REPEATED"` — its decimal rendering models that. -/
def labelTable : List (Nat × String) := [
  (LABEL_OPTIONAL, "LABEL_OPTIONAL"), (LABEL_REPEATED, "LABEL_REPEATED"),
  (LABEL_REQUIRED, "LABEL_REQUIRED")]

def map_label (label_type : Nat) : String :=
  match labelTable.find? (fun p => p.1 == label_type) with
  | some p => p.2
  | none => toString label_type

/-- The type-name resolution for a message-kind field (generate_message
lines 91-101): if the qualified name's segment after the leading `.`
equals the package keep only the last segment, otherwise drop only the
leading `.`; a `google.protobuf`-prefixed path is remapped through the
well-known table; finally `.` becomes `/`.  `parts.getD 1 ""` models the
Python `split('.')[1]` access, which presupposes a fully qualified
(`.`-containing) `type_name` as delivered by the plugin protocol. -/
def messageFieldType (type_name package : String) : String :=
  let parts := Msg2Proto.pySplit type_name '.'
  let fieldtype :=
    if parts.getD 1 "" == package then parts.getLastD ""
    else String.mk (type_name.data.drop 1)
  let fieldtype :=
    if "google.protobuf".data.isPrefixOf fieldtype.data then map_type_name fieldtype
    else fieldtype
  Msg2Proto.charReplace fieldtype '.' '/'

/-- The field loop of `generate_message` (lines 88-115), threading the
accumulated output text and the set of referenced enum names. -/
def genFieldsGo : List FieldDescP → String → String → List String → String × List String
  | [], _, output, refs => (output, refs)
  | fld :: rest, package, output, refs =>
    let mapped := map_type fld.type
    let tcr : String × String × List String :=
      if mapped == "TYPE_MESSAGE" then
        (messageFieldType fld.type_name package, "", refs)
      else if mapped == "TYPE_ENUM" then
        let enum_name := (Msg2Proto.pySplit fld.type_name '.').getLastD ""
        (CONSTANT_FIELD_TYPE, "# " ++ enum_name, refs.insert enum_name)
      else (mapped, "", refs)
    let fieldtype := if map_label fld.label == "LABEL_REPEATED" then tcr.1 ++ "[]" else tcr.1
    genFieldsGo rest package (output ++ fieldtype ++ " " ++ fld.name ++ " " ++ tcr.2.1 ++ "\n")
      tcr.2.2

/-- `generate_message` (lines 83-116): header comments, one line per
field, the referenced enum names, and the always-`None` error slot. -/
def generate_message (message : MsgDesc) (package : String) :
    String × List String × Option String :=
  let output := "# This file was generated. DO NOT EDIT!\n\n" ++ "# " ++ message.name ++ "\n"
  let orf := genFieldsGo message.field package output []
  (orf.1, orf.2, none)

/-- `generate_enum` (lines 119-124). -/
def generate_enum (enum : EnumDesc) : String :=
  "\n# " ++ enum.name ++ "\n" ++
    Msg2Proto.strConcat
      (enum.value.map (fun v => CONSTANT_FIELD_TYPE ++ " " ++ v.name ++ "=" ++ toString v.number ++ "\n"))

/-- The referenced-enum loop of `generate_msg_file` (lines 66-70): each
enum of the file whose name is still in the outstanding set is appended
once and its name removed from the set. -/
def add_enums : List EnumDesc → List String → String → String × List String
  | [], refs, output => (output, refs)
  | e :: es, refs, output =>
    if e.name ∈ refs then add_enums es (refs.erase e.name) (output ++ generate_enum e)
    else add_enums es refs output

/-- The enums that loop appends, in iteration order. -/
def inlinedEnums : List EnumDesc → List String → List EnumDesc
  | [], _ => []
  | e :: es, refs =>
    if e.name ∈ refs then e :: inlinedEnums es (refs.erase e.name)
    else inlinedEnums es refs

/-- `generate_msg_file` (lines 59-81). -/
def generate_msg_file (message : MsgDesc) (package : String) (enums : List EnumDesc)
    (response : Resp) : Resp :=
  match generate_message message package with
  | (output, referenced_enums, errors) =>
    let oe := add_enums enums referenced_enums output
    match errors with
    | some e => { response with error := some e }
    | none =>
      { response with
          file := response.file ++ [(package ++ "/" ++ message.name ++ ".msg", oe.1)] }

/-- `collect_enums` (lines 52-56).  In the source, the local name
`enums` is bound to the descriptor's repeated field itself
(`enums = proto_file.enum_type`), so the subsequent
`enums.extend(message.enum_type)` calls append every message's nested
enums to the proto file's own top-level enum list; the returned pair is
the extended list together with the so-mutated file. -/
def collect_enums (proto_file : ProtoFile) : List EnumDesc × ProtoFile :=
  let enums :=
    proto_file.message_type.foldl (fun acc message => acc ++ message.enum_type)
      proto_file.enum_type
  (enums, { proto_file with enum_type := enums })

/-- `generate_msg_files` (lines 41-49): one generated file per top-level
message and per directly nested message; the mutated file of
`collect_enums` is part of the result. -/
def generate_msg_files (proto_file : ProtoFile) (response : Resp) : Resp × ProtoFile :=
  let ef := collect_enums proto_file
  let response := ef.2.message_type.foldl
    (fun resp message =>
      let resp := generate_msg_file message ef.2.package ef.1 resp
      message.nested_type.foldl
        (fun r nested => generate_msg_file nested ef.2.package ef.1 r) resp)
    response
  (response, ef.2)

def emptyProtoFile : ProtoFile := ⟨"", "", [], []⟩

/-- `generate_code` (lines 36-38): only the last proto file of the
request (`request.proto_file[-1]`) is processed; the request list with
that entry replaced by its mutated version models the in-place mutation
of the Python descriptor (the protocol guarantees a non-empty request,
which `getLastD` models with a dummy default). -/
def generate_code (request : List ProtoFile) (response : Resp) : Resp × List ProtoFile :=
  let proto_file := request.getLastD emptyProtoFile
  let rmut := generate_msg_files proto_file response
  (rmut.1, request.dropLast ++ [rmut.2])

/-- Modelled from the spec: the correspondence between IDL-B scalar type
keywords and the external descriptor model's numeric type codes
(`descriptor.proto`), which `src/` only references through the names
`FieldDescriptorProto.TYPE_*`.  It bridges the forward table (which
produces keywords) and the reverse table (which consumes codes) for the
round-trip property. -/
def scalarCodeTable : List (String × Nat) := [
  ("double", TYPE_DOUBLE), ("float", TYPE_FLOAT), ("int64", TYPE_INT64),
  ("uint64", TYPE_UINT64), ("int32", TYPE_INT32), ("fixed64", TYPE_FIXED64),
  ("fixed32", TYPE_FIXED32), ("bool", TYPE_BOOL), ("string", TYPE_STRING),
  ("bytes", TYPE_BYTES), ("uint32", TYPE_UINT32), ("sfixed32", TYPE_SFIXED32),
  ("sfixed64", TYPE_SFIXED64), ("sint32", TYPE_SINT32), ("sint64", TYPE_SINT64)]

/-- The descriptor type code of an IDL-B scalar keyword (0 when the
keyword is not a scalar). -/
def protoTypeCode (keyword : String) : Nat :=
  match scalarCodeTable.find? (fun p => p.1 == keyword) with
  | some p => p.2
  | none => 0

end ProtocGenMsg

/-! ## Helper lemmas -/

theorem strData_append (a b : String) : (a ++ b).data = a.data ++ b.data := by
  cases a; cases b; rfl

theorem strExt {a b : String} (h : a.data = b.data) : a = b := by
  cases a; cases b; cases h; rfl

theorem strMkData (s : String) : String.mk s.data = s := by
  cases s; rfl

theorem strAppend_assoc (a b c : String) : a ++ b ++ c = a ++ (b ++ c) := by
  apply strExt; simp [strData_append]

theorem strAppend_empty (a : String) : a ++ "" = a := by
  apply strExt; simp [strData_append]

theorem strPrefix_append_left (p t : String) : p.data <+: (p ++ t).data := by
  rw [strData_append]; exact List.prefix_append _ _

theorem strPrefix_append_more (s t p : String) (h : p.data <+: s.data) :
    p.data <+: (s ++ t).data := by
  rw [strData_append]; exact h.trans (List.prefix_append _ _)

namespace Msg2Proto

theorem bodyChunks_eq_annotate (d : List Item) (n : Nat) :
    bodyChunks d n = (annotateNums d n).map (fun p => itemChunk p.1 p.2) := by
  induction d generalizing n with
  | nil => simp [bodyChunks, annotateNums]
  | cons it d ih => simp [bodyChunks, annotateNums, ih]

theorem annotate_fst (d : List Item) (n : Nat) :
    (annotateNums d n).map Prod.fst = d := by
  induction d generalizing n with
  | nil => simp [annotateNums]
  | cons it d ih => simp [annotateNums, ih]

theorem fieldNumbers_range (d : List Item) (n : Nat) :
    fieldNumbersFrom d n = List.range' n (countFields d) := by
  induction d generalizing n with
  | nil => simp [fieldNumbersFrom, countFields]
  | cons it d ih =>
    cases it <;> simp [fieldNumbersFrom, countFields, nextNum, ih, List.range'_succ]

/-- Claim C1: `generate_proto` walks the document in order, emitting one
body chunk per item with the item order preserved (comments and empty
lines included), and the field numbers it writes are exactly
`1..countFields doc` in document order: the counter starts at `1` and is
changed only by field items — comments, empty lines and constants leave
it untouched.  The message block of the full output is assembled from
exactly these chunks. -/
theorem spec_C1 (doc : List Item) (msg_name package : String) :
    bodyChunks doc 1 = (annotateNums doc 1).map (fun p => itemChunk p.1 p.2) ∧
    (annotateNums doc 1).map Prod.fst = doc ∧
    fieldNumbersFrom doc 1 = List.range' 1 (countFields doc) ∧
    (∀ (c : String) (n : Nat), nextNum (Item.comment c) n = n) ∧
    (∀ n : Nat, nextNum Item.emptyline n = n) ∧
    (∀ (k : FieldRec) (n : Nat), nextNum (Item.constant k) n = n) ∧
    (∀ (f : FieldRec) (n : Nat), nextNum (Item.field f) n = n + 1) ∧
    ∃ pre, generate_proto doc msg_name package =
      pre ++ ("message " ++ msg_name ++ " \x7b\n" ++ strConcat (bodyChunks doc 1) ++ "\x7d") := by
  refine ⟨bodyChunks_eq_annotate doc 1, annotate_fst doc 1, fieldNumbers_range doc 1,
    fun c n => rfl, fun n => rfl, fun k n => rfl, fun f n => rfl, ?_⟩
  exact ⟨_, rfl⟩

end Msg2Proto

/-- Claim C2: every scalar-preserving forward mapping round-trips: for
each of the eight lossless primitive names, mapping forward with the
IDL-A table, reading the resulting IDL-B keyword as its descriptor type
code, and mapping back through the reverse table recovers the original
name. -/
theorem spec_C2 :
    ProtocGenMsg.map_type (ProtocGenMsg.protoTypeCode (Msg2Proto.map_type "float64")) = "float64" ∧
    ProtocGenMsg.map_type (ProtocGenMsg.protoTypeCode (Msg2Proto.map_type "float32")) = "float32" ∧
    ProtocGenMsg.map_type (ProtocGenMsg.protoTypeCode (Msg2Proto.map_type "int64")) = "int64" ∧
    ProtocGenMsg.map_type (ProtocGenMsg.protoTypeCode (Msg2Proto.map_type "uint64")) = "uint64" ∧
    ProtocGenMsg.map_type (ProtocGenMsg.protoTypeCode (Msg2Proto.map_type "int32")) = "int32" ∧
    ProtocGenMsg.map_type (ProtocGenMsg.protoTypeCode (Msg2Proto.map_type "uint32")) = "uint32" ∧
    ProtocGenMsg.map_type (ProtocGenMsg.protoTypeCode (Msg2Proto.map_type "bool")) = "bool" ∧
    ProtocGenMsg.map_type (ProtocGenMsg.protoTypeCode (Msg2Proto.map_type "string")) = "string" := by
  decide

namespace Msg2Proto

/-- Claim C3: `parse_msg` is all-or-nothing.  Whenever it returns a
document, the grammar match covered the entire input (an incomplete
match raises `IncompleteParseError`, which the caller turns into the
no-document result), so no partial document is ever returned; and the
unit containing the malformed line `123abc BadType` is rejected
outright. -/
theorem spec_C3 :
    (∀ (s : String) (d : List Item), parse_msg s = some d →
        (pMsgGo (s.data.length + 1) s.data).2 = []) ∧
    parse_msg "123abc BadType\n" = none := by
  constructor
  · intro s d h
    unfold parse_msg at h
    split at h
    · next heq => rw [heq]
    · exact absurd h (by simp)
  · rfl

theorem spec_C3_witness :
    (pMsgGo ("float64 x\n".data.length + 1) "float64 x\n".data).2 = [] :=
  spec_C3.1 "float64 x\n"
    [Item.field ⟨⟨"", "float64", false, false, none⟩, "x", "", ""⟩] (by decide)

end Msg2Proto

namespace ProtocGenMsg

theorem add_enums_fst (es : List EnumDesc) (refs : List String) (out : String) :
    (add_enums es refs out).1 =
      out ++ Msg2Proto.strConcat ((inlinedEnums es refs).map generate_enum) := by
  induction es generalizing refs out with
  | nil => simp [add_enums, inlinedEnums, Msg2Proto.strConcat, strAppend_empty]
  | cons e es ih =>
    by_cases h : e.name ∈ refs
    · simp [add_enums, inlinedEnums, h, ih, Msg2Proto.strConcat, strAppend_assoc]
    · simp [add_enums, inlinedEnums, h, ih]

theorem inlined_count_zero (es : List EnumDesc) (refs : List String) (name : String)
    (h : name ∉ refs) :
    (inlinedEnums es refs).countP (fun e => e.name == name) = 0 := by
  induction es generalizing refs with
  | nil => simp [inlinedEnums]
  | cons e es ih =>
    by_cases hm : e.name ∈ refs
    · have hne : e.name ≠ name := fun heq => h (heq ▸ hm)
      have hsub : name ∉ refs.erase e.name := fun hc => h (List.mem_of_mem_erase hc)
      simp [inlinedEnums, hm, List.countP_cons, hne, ih _ hsub]
    · simp [inlinedEnums, hm, ih _ h]

theorem inlined_count_one (es : List EnumDesc) (refs : List String) (name : String)
    (hnd : refs.Nodup) (h : name ∈ refs) (he : ∃ e, e ∈ es ∧ e.name = name) :
    (inlinedEnums es refs).countP (fun e => e.name == name) = 1 := by
  induction es generalizing refs with
  | nil =>
    obtain ⟨e, he, _⟩ := he
    cases he
  | cons e es ih =>
    by_cases hm : e.name ∈ refs
    · by_cases hname : e.name = name
      · have hz : name ∉ refs.erase name := hnd.not_mem_erase
        simp [inlinedEnums, hm, h, List.countP_cons, hname,
          inlined_count_zero es (refs.erase name) name hz]
      · have hmem : name ∈ refs.erase e.name := by
          rw [List.mem_erase_of_ne (fun q => hname q.symm)]; exact h
        obtain ⟨e1, he1, hn1⟩ := he
        have he1' : e1 ∈ es := by
          cases he1 with
          | head => exact absurd hn1 hname
          | tail _ ht => exact ht
        simp [inlinedEnums, hm, List.countP_cons, hname,
          ih (refs.erase e.name) (hnd.erase _) hmem ⟨e1, he1', hn1⟩]
    · have hne : e.name ≠ name := fun q => hm (q ▸ h)
      obtain ⟨e1, he1, hn1⟩ := he
      have he1' : e1 ∈ es := by
        cases he1 with
        | head => exact absurd hn1 hne
        | tail _ ht => exact ht
      simp [inlinedEnums, hm, ih refs hnd h ⟨e1, he1', hn1⟩]

theorem genFields_refs_nodup (flds : List FieldDescP) (pkg : String) :
    ∀ (out : String) (refs : List String), refs.Nodup →
      (genFieldsGo flds pkg out refs).2.Nodup := by
  induction flds with
  | nil => intro out refs h; simpa [genFieldsGo] using h
  | cons fld rest ih =>
    intro out refs h
    by_cases h1 : map_type fld.type == "TYPE_MESSAGE"
    · simpa [genFieldsGo, h1] using ih _ _ h
    · by_cases h2 : map_type fld.type == "TYPE_ENUM"
      · simpa [genFieldsGo, h1, h2] using ih _ _ (h.insert)
      · simpa [genFieldsGo, h1, h2] using ih _ _ h

theorem generate_message_refs_nodup (m : MsgDesc) (p : String) :
    (generate_message m p).2.1.Nodup :=
  genFields_refs_nodup m.field p _ [] List.nodup_nil

/-- Claim C4: the referenced-enum pass inlines each referenced enum
exactly once.  The file content produced by `generate_msg_file` is the
message body followed by the blocks of `inlinedEnums`, and for every
enum name referenced by the message (however many fields reference it)
that occurs in the collected enum list, exactly one block with that name
is inlined — the name is held in a set and consumed on first match. -/
theorem spec_C4 :
    (∀ (m : MsgDesc) (p : String) (enums : List EnumDesc) (resp : Resp),
      generate_msg_file m p enums resp =
        { resp with
            file := resp.file ++ [(p ++ "/" ++ m.name ++ ".msg",
              (generate_message m p).1 ++
                Msg2Proto.strConcat
                  ((inlinedEnums enums (generate_message m p).2.1).map generate_enum))] }) ∧
    (∀ (m : MsgDesc) (p : String) (enums : List EnumDesc) (name : String),
      name ∈ (generate_message m p).2.1 →
      (∃ e, e ∈ enums ∧ e.name = name) →
      (inlinedEnums enums (generate_message m p).2.1).countP (fun e => e.name == name) = 1) := by
  constructor
  · intro m p enums resp
    have hshape : generate_msg_file m p enums resp =
        { resp with
            file := resp.file ++ [(p ++ "/" ++ m.name ++ ".msg",
              (add_enums enums (generate_message m p).2.1 (generate_message m p).1).1)] } := rfl
    rw [hshape, add_enums_fst]
  · intro m p enums name hmem hex
    exact inlined_count_one enums _ name (generate_message_refs_nodup m p) hmem hex

theorem spec_C4_witness :
    (inlinedEnums [⟨"Status", [⟨"OK", 0⟩, ⟨"ERR", 1⟩]⟩]
      (generate_message
        (MsgDesc.mk "M"
          [⟨"status", 1, 1, 14, ".diagnostics.Status"⟩,
           ⟨"level", 2, 1, 14, ".diagnostics.Status"⟩] [] [])
        "diagnostics").2.1).countP (fun e => e.name == "Status") = 1 :=
  spec_C4.2
    (MsgDesc.mk "M"
      [⟨"status", 1, 1, 14, ".diagnostics.Status"⟩,
       ⟨"level", 2, 1, 14, ".diagnostics.Status"⟩] [] [])
    "diagnostics" [⟨"Status", [⟨"OK", 0⟩, ⟨"ERR", 1⟩]⟩] "Status" (by decide)
    ⟨⟨"Status", [⟨"OK", 0⟩, ⟨"ERR", 1⟩]⟩, by decide⟩

end ProtocGenMsg

namespace Msg2Proto

theorem splitCharAux_no_sep (c : Char) (l : List Char) :
    ∀ acc, c ∉ l → splitCharAux c l acc = [String.mk (acc.reverse ++ l)] := by
  induction l with
  | nil => intro acc _; simp [splitCharAux]
  | cons x xs ih =>
    intro acc h
    rw [List.mem_cons] at h
    push_neg at h
    have hx : (x == c) = false := by
      simp only [beq_eq_false_iff_ne]
      exact fun q => h.1 q.symm
    simp [splitCharAux, hx, ih (x :: acc) h.2]

theorem splitCharAux_sep (c : Char) (l1 : List Char) :
    ∀ (l2 acc : List Char), c ∉ l1 →
      splitCharAux c (l1 ++ c :: l2) acc =
        String.mk (acc.reverse ++ l1) :: splitCharAux c l2 [] := by
  induction l1 with
  | nil => intro l2 acc _; simp [splitCharAux]
  | cons x xs ih =>
    intro l2 acc h
    rw [List.mem_cons] at h
    push_neg at h
    have hx : (x == c) = false := by
      simp only [beq_eq_false_iff_ne]
      exact fun q => h.1 q.symm
    simp [splitCharAux, hx, ih l2 (x :: acc) h.2]

theorem strMkNil : String.mk [] = "" := rfl

theorem mapReplace_eq_self (l : List Char) (a b : Char) (h : a ∉ l) :
    l.map (fun c => if c == a then b else c) = l := by
  induction l with
  | nil => rfl
  | cons x xs ih =>
    rw [List.mem_cons] at h
    push_neg at h
    have hx : (x == a) = false := by
      simp only [beq_eq_false_iff_ne]
      exact fun q => h.1 q.symm
    simp only [List.map_cons, hx, Bool.false_eq_true, if_false, ih h.2]

theorem charReplace_eq_self (s : String) (a b : Char) (h : a ∉ s.data) :
    charReplace s a b = s := by
  apply strExt
  show (s.data.map _) = s.data
  exact mapReplace_eq_self s.data a b h

end Msg2Proto

namespace ProtocGenMsg

theorem google_prefix_has_dot (l : List Char)
    (h : "google.protobuf".data.isPrefixOf l = true) : '.' ∈ l := by
  have hp := List.isPrefixOf_iff_prefix.mp h
  exact hp.sublist.subset (by decide)

/-- Claim C5 (amended): for a message-kind field, if the qualified type
name's immediate namespace equals the current package the rendered type
is just the local name; otherwise the leading separator is stripped
and — unless the remaining path starts with `google.protobuf`, in which
case it is remapped through the well-known-type table — the remaining
qualified path is kept with `.` translated to `/`.  In particular
`.diagnostics.Header` inside package `diagnostics` renders as
`Header`. -/
theorem spec_C5 :
    (∀ (ns lc pkg : String), '.' ∉ ns.data → '.' ∉ lc.data → ns = pkg →
        messageFieldType ("." ++ ns ++ "." ++ lc) pkg = lc) ∧
    (∀ (ns rest pkg : String), '.' ∉ ns.data → ns ≠ pkg →
        "google.protobuf".data.isPrefixOf (ns ++ "." ++ rest).data = false →
        messageFieldType ("." ++ ns ++ "." ++ rest) pkg =
          Msg2Proto.charReplace (ns ++ "." ++ rest) '.' '/') ∧
    messageFieldType ".diagnostics.Header" "diagnostics" = "Header" := by
  refine ⟨?_, ?_, by decide⟩
  · intro ns lc pkg hns hlc hpk
    subst hpk
    have hdata : ("." ++ ns ++ "." ++ lc).data = '.' :: (ns.data ++ '.' :: lc.data) := by
      simp [strData_append]
    have hsplit : Msg2Proto.pySplit ("." ++ ns ++ "." ++ lc) '.' = ["", ns, lc] := by
      unfold Msg2Proto.pySplit
      rw [hdata]
      rw [show Msg2Proto.splitCharAux '.' ('.' :: (ns.data ++ '.' :: lc.data)) [] =
          String.mk [] :: Msg2Proto.splitCharAux '.' (ns.data ++ '.' :: lc.data) [] from by
        simp [Msg2Proto.splitCharAux]]
      rw [Msg2Proto.splitCharAux_sep '.' ns.data lc.data [] hns]
      rw [Msg2Proto.splitCharAux_no_sep '.' lc.data [] hlc]
      simp [Msg2Proto.strMkNil, strMkData]
    have hgoog : "google.protobuf".data.isPrefixOf lc.data = false := by
      rw [Bool.eq_false_iff]
      exact fun q => hlc (google_prefix_has_dot lc.data q)
    have e1 : (["", ns, lc] : List String).getD 1 "" = ns := rfl
    have e2 : (["", ns, lc] : List String).getLastD "" = lc := rfl
    simp only [messageFieldType, hsplit, e1, beq_self_eq_true, if_true, e2]
    rw [hgoog]
    simp only [Bool.false_eq_true, if_false]
    exact Msg2Proto.charReplace_eq_self lc '.' '/' hlc
  · intro ns rest pkg hns hneq hgoog
    have hdata : ("." ++ ns ++ "." ++ rest).data = '.' :: (ns.data ++ '.' :: rest.data) := by
      simp [strData_append]
    have hsplit : Msg2Proto.pySplit ("." ++ ns ++ "." ++ rest) '.' =
        "" :: ns :: Msg2Proto.splitCharAux '.' rest.data [] := by
      unfold Msg2Proto.pySplit
      rw [hdata]
      rw [show Msg2Proto.splitCharAux '.' ('.' :: (ns.data ++ '.' :: rest.data)) [] =
          String.mk [] :: Msg2Proto.splitCharAux '.' (ns.data ++ '.' :: rest.data) [] from by
        simp [Msg2Proto.splitCharAux]]
      rw [Msg2Proto.splitCharAux_sep '.' ns.data rest.data [] hns]
      simp [Msg2Proto.strMkNil, strMkData]
    have hdrop : String.mk (("." ++ ns ++ "." ++ rest).data.drop 1) = ns ++ "." ++ rest := by
      rw [hdata]
      show String.mk (ns.data ++ '.' :: rest.data) = _
      apply strExt
      simp [strData_append]
    have e1 : ("" :: ns :: Msg2Proto.splitCharAux '.' rest.data []).getD 1 "" = ns := rfl
    have hpkg : (ns == pkg) = false := by
      simp only [beq_eq_false_iff_ne]
      exact hneq
    simp only [messageFieldType, hsplit, e1, hpkg, Bool.false_eq_true, if_false, hdrop]
    rw [hgoog]
    simp only [Bool.false_eq_true, if_false]

theorem spec_C5_witness : messageFieldType ".diagnostics.Point" "diagnostics" = "Point" :=
  spec_C5.1 "diagnostics" "Point" "diagnostics" (by decide) (by decide) rfl

/-- Claim C5 counterexample: a message-kind field of type
`.google.protobuf.Timestamp` in package `diagnostics` is not rendered as
the separator-translated qualified path `google/protobuf/Timestamp` that
the claim's otherwise-branch describes; it is remapped through the
well-known table to `builtin_interfaces/Time`. -/
theorem spec_C5_cex :
    messageFieldType ".google.protobuf.Timestamp" "diagnostics" = "builtin_interfaces/Time" ∧
    messageFieldType ".google.protobuf.Timestamp" "diagnostics" ≠ "google/protobuf/Timestamp" := by
  decide

/-- Claim C6 (amended): a field whose descriptor type is neither the
message kind nor the enum kind renders with the reverse TypeMap entry
for its type code; every code with no table entry (unrecognized codes)
falls back to `string` rather than erroring; the group kind, however,
has a table entry and renders as the literal sentinel `TYPE_GROUP`, not
as `string`. -/
theorem spec_C6 :
    (∀ (fld : FieldDescP) (rest : List FieldDescP) (pkg out : String) (refs : List String),
        map_type fld.type ≠ "TYPE_MESSAGE" → map_type fld.type ≠ "TYPE_ENUM" →
        map_label fld.label ≠ "LABEL_REPEATED" →
        genFieldsGo (fld :: rest) pkg out refs =
          genFieldsGo rest pkg
            (out ++ map_type fld.type ++ " " ++ fld.name ++ " " ++ "" ++ "\n") refs) ∧
    (∀ t : Nat, (∀ p ∈ typeTable, p.1 ≠ t) → map_type t = "string") ∧
    map_type TYPE_GROUP = "TYPE_GROUP" := by
  refine ⟨?_, ?_, rfl⟩
  · intro fld rest pkg out refs h1 h2 h3
    have b1 : (map_type fld.type == "TYPE_MESSAGE") = false := by
      simp only [beq_eq_false_iff_ne]; exact h1
    have b2 : (map_type fld.type == "TYPE_ENUM") = false := by
      simp only [beq_eq_false_iff_ne]; exact h2
    have b3 : (map_label fld.label == "LABEL_REPEATED") = false := by
      simp only [beq_eq_false_iff_ne]; exact h3
    simp only [genFieldsGo, b1, b2, b3, Bool.false_eq_true, if_false]
  · intro t h
    have hf : typeTable.find? (fun p => p.1 == t) = none := by
      rw [List.find?_eq_none]
      intro p hp
      simp only [beq_iff_eq]
      exact h p hp
    simp [map_type, hf]

theorem spec_C6_witness :
    genFieldsGo [⟨"x", 1, 1, 1, ""⟩] "p" "" [] =
      genFieldsGo [] "p" ("" ++ map_type 1 ++ " " ++ "x" ++ " " ++ "" ++ "\n") [] :=
  spec_C6.1 ⟨"x", 1, 1, 1, ""⟩ [] "p" "" [] (by decide) (by decide) (by decide)

/-- Claim C6 counterexample: a group-kind field (type code 10) is
rendered with field type `TYPE_GROUP`, not `string` — the group kind has
a reverse-table entry, so it does not take the no-entry `string`
fallback the claim describes. -/
theorem spec_C6_cex :
    genFieldsGo [⟨"g", 1, LABEL_OPTIONAL, TYPE_GROUP, ""⟩] "p" "" [] = ("TYPE_GROUP g \n", []) ∧
    map_type TYPE_GROUP ≠ "string" := by
  decide

end ProtocGenMsg

namespace Msg2Proto

/-- The document parsed from the constant line `uint8 RED = 0 # red color`. -/
def doc_RED : List Item :=
  [Item.constant ⟨⟨"", "uint8", false, false, none⟩, "RED", "0", "red color"⟩]

/-- Claim C7 counterexample: the rendered output of the parsed constant
line `uint8 RED = 0 # red color` nowhere contains the text
`// RED = 0; // red color` claimed as its output line — the renderer
inserts a second two-space indent between `// ` and the name. -/
theorem spec_C7_cex :
    parse_msg "uint8 RED = 0 # red color\n" = some doc_RED ∧
    ¬ ("// RED = 0; // red color".data <:+: (generate_proto doc_RED "Color" "").data) := by
  constructor
  · rfl
  · decide

/-- Claim C7 (amended): a constant is emitted as a comment-only line and
consumes no field number.  The parsed constant line
`uint8 RED = 0 # red color` produces the output line
`  //   RED = 0; // red color` (the renderer writes its two-space
indent, then `// `, then a second two-space indent before
`NAME = value;`), and the field numbers of a document are unchanged when
a constant item is removed, so a field after a constant receives the
same number it would have received without it. -/
theorem spec_C7 :
    "  //   RED = 0; // red color" ∈ pySplit (generate_proto doc_RED "Color" "") '\n' ∧
    (∀ (k : FieldRec) (l1 l2 : List Item) (n : Nat),
      fieldNumbersFrom (l1 ++ Item.constant k :: l2) n = fieldNumbersFrom (l1 ++ l2) n) := by
  constructor
  · decide
  · intro k l1 l2 n
    induction l1 generalizing n with
    | nil => simp [fieldNumbersFrom, nextNum]
    | cons it l1 ih => cases it <;> simp [fieldNumbersFrom, nextNum, ih]

/-- The document parsed from the array-field line `int32[10] data`. -/
def doc_DATA : List Item :=
  [Item.field ⟨⟨"", "int32", false, true, some "10"⟩, "data", "", ""⟩]

/-- Claim C8: an array field is rendered with the `repeated` label in
front of the mapped type, and a non-empty array bound is folded into the
trailing comment; the parsed line `int32[10] data` (sole field, empty
package) yields an output containing the field line
`repeated int32 data = 1; // [10]`. -/
theorem spec_C8 :
    (∀ (f : FieldRec) (n : Nat), f.type.is_array = true →
        "  repeated ".data <+: (renderFieldLine f n).data) ∧
    (∀ (f : FieldRec) (n : Nat) (b : String), f.type.is_array = true →
        f.type.arraybound = some b → b ≠ "" →
        ∃ pre, renderFieldLine f n = pre ++ " // " ++ ("[" ++ b ++ "] " ++ f.comment)) ∧
    parse_msg "int32[10] data\n" = some doc_DATA ∧
    "repeated int32 data = 1; // [10]".data <:+: (generate_proto doc_DATA "Data" "").data := by
  refine ⟨?_, ?_, rfl, by decide⟩
  · intro f n h
    have hlab : (("repeated" : String) != "") = true := by decide
    simp only [renderFieldLine, h, if_true, hlab]
    rw [show (INDENT ++ "repeated" ++ " " : String) = "  repeated " from rfl]
    split
    · exact strPrefix_append_more _ _ _
        (strPrefix_append_more _ _ _
          (strPrefix_append_more _ _ _
            (strPrefix_append_more _ _ _
              (strPrefix_append_more _ _ _
                (strPrefix_append_more _ _ _ (strPrefix_append_left _ _))))))
    · exact strPrefix_append_more _ _ _
        (strPrefix_append_more _ _ _
          (strPrefix_append_more _ _ _
            (strPrefix_append_more _ _ _
              (strPrefix_append_more _ _ _ (strPrefix_append_left _ _)))))
  · intro f n b h hb hbne
    have hc : (("[" ++ b ++ "] " ++ f.comment : String) != "") = true := by
      simp only [bne_iff_ne, ne_eq]
      intro q
      have := congrArg String.data q
      simp [strData_append] at this
    have hbb : ((b != "") = true) := by simp only [bne_iff_ne]; exact hbne
    simp only [renderFieldLine, h, hb, if_true, hbb, hc]
    exact ⟨_, rfl⟩

theorem spec_C8_witness :
    "  repeated ".data <+:
      (renderFieldLine ⟨⟨"", "int32", false, true, some "10"⟩, "data", "", ""⟩ 1).data :=
  spec_C8.1 ⟨⟨"", "int32", false, true, some "10"⟩, "data", "", ""⟩ 1 rfl

theorem itemImport_none_of_selfref (it : Item) (m p : String)
    (h : isSelfRefItem it m p = true) : itemImport it m p = none := by
  cases it with
  | field f =>
    simp only [isSelfRefItem, Bool.and_eq_true] at h
    obtain ⟨h1, h2⟩ := h
    simp only [itemImport, h1, if_true, bne, h2, Bool.not_true, Bool.false_eq_true, if_false]
  | emptyline => rfl
  | comment c => rfl
  | constant k => rfl

/-- Claim C9: a field whose complex type resolves — after TypeMap
mapping and package qualification — to a final segment equal to the
message being rendered contributes nothing to the import set: deleting
all such self-referential items from the document leaves the collected
set of imports unchanged. -/
theorem spec_C9 :
    (∀ (it : Item) (m p : String), isSelfRefItem it m p = true → itemImport it m p = none) ∧
    (∀ (doc : List Item) (m p : String) (acc : List String),
      collectImports m p doc acc =
        collectImports m p (doc.filter (fun it => !(isSelfRefItem it m p))) acc) := by
  constructor
  · exact itemImport_none_of_selfref
  · intro doc m p
    induction doc with
    | nil => intro acc; rfl
    | cons it d ih =>
      intro acc
      by_cases h : isSelfRefItem it m p
      · simp only [List.filter_cons, h, Bool.not_true, Bool.false_eq_true, if_false]
        simp only [collectImports, itemImport_none_of_selfref it m p h]
        exact ih acc
      · have hb : isSelfRefItem it m p = false := by
          rw [Bool.eq_false_iff]; exact h
        simp only [List.filter_cons, hb, Bool.not_false, if_true]
        simp only [collectImports]
        exact ih _

theorem spec_C9_witness :
    itemImport (Item.field ⟨⟨"", "Point", true, false, none⟩, "next", "", ""⟩) "Point" "geo"
      = none :=
  spec_C9.1 (Item.field ⟨⟨"", "Point", true, false, none⟩, "next", "", ""⟩) "Point" "geo"
    (by decide)

end Msg2Proto

namespace ProtocGenMsg

/-- The request of the C10 failing input: package `p`, one message `M`
with one nested enum `Status`. -/
def reqStatus : List ProtoFile :=
  [⟨"diag.proto", "p", [MsgDesc.mk "M" [] [] [⟨"Status", [⟨"OK", 0⟩]⟩]], []⟩]

/-- Claim C10 evaluated at its failing input: after `generate_code`, the
selected proto file's top-level enum list has changed — `collect_enums`
binds the descriptor's own repeated enum field and extends it with every
message's nested enums, mutating the request descriptor that the claim
says stays unchanged. -/
theorem spec_C10_mutation :
    ((generate_code reqStatus ⟨[], none⟩).2.getLastD emptyProtoFile).enum_type =
      [⟨"Status", [⟨"OK", 0⟩]⟩] ∧
    (reqStatus.getLastD emptyProtoFile).enum_type = [] ∧
    ((generate_code reqStatus ⟨[], none⟩).2.getLastD emptyProtoFile).enum_type ≠
      (reqStatus.getLastD emptyProtoFile).enum_type := by
  refine ⟨rfl, rfl, by decide⟩

end ProtocGenMsg
